import Mathlib

/-!
# Interview Conversation Engine — verification of `app/services/llm_service.py`

Shallow embedding of the session-state entity (`InterviewContext`), the
turn protocol with bounded retry (`LLMService.generate_response`), the
score aggregator (the per-category `max` watermark and the overall-mean
recomputation), and final-report synthesis (`generate_final_report`).

Modelling decisions, each traceable to the source:

* Python numbers in the scores dict are modelled as `ℚ` (category values
  are in fact always integers — proved below — while `overall` becomes a
  non-integer after the first update; `ℚ` covers both, exactly).
* A provider reply is one of: a raised provider error, text that fails
  `json.loads`, or a parsed JSON object whose four relevant fields are
  each present or absent (`Option`).  A parsed non-object behaves, for
  state purposes, exactly like unparseable text (it fails before any
  mutation), so `unparseable` also covers it.
* The scores dict of a session has exactly the four fixed keys:
  `context.scores[category] = max(context.scores[category], int(score))`
  evaluates the right-hand lookup first, so an unknown reported key
  raises `KeyError` before any assignment can insert it.  `Scores` is
  therefore a four-field structure, and the `sum(... if category !=
  "overall") / 3` in the source is exactly
  `(communication + technical + behavioral) / 3`.
* Python's `int(...)` coercion: identity on ints, truncation toward zero
  on floats, and integer-literal parsing on strings (an optional sign
  followed by digits; whitespace and underscore forms are not used by
  any claim and are omitted).  Anything else raises, modelled by `none`.
* `time.sleep(self.retry_delay)` is modelled by recording the delay in a
  sleep log; real time is out of scope.
* The mutation ORDER inside one attempt follows the source line by line:
  the argument list `[user_input, response_data["response"]]` is built
  (a missing `response` key fails here) before `history.extend`; then
  `current_phase` is assigned, `feedback` appended, and the score loop
  runs with per-key lookup/coercion failure possible mid-loop.  A
  failure after `extend` leaves the partial mutations in place — the
  source has no rollback — and the retry loop then runs the next
  attempt on the mutated context.
-/

/-- A JSON score value as delivered by the provider: an integer, a float
(modelled exactly as a rational), or a string. -/
inductive PyVal where
  | pyInt (n : Int)
  | pyFloat (q : ℚ)
  | pyStr (s : String)
deriving DecidableEq

/-- Digits-only parse of a nonempty character list, the digit part of
Python's `int(str)` grammar. -/
def digitsToNat (l : List Char) : Option Nat :=
  if l = [] then none
  else if l.all Char.isDigit then
    some (l.foldl (fun a c => a * 10 + (c.toNat - 48)) 0)
  else none

/-- Python `int(s)` on a string: optional sign then digits; anything else
(e.g. `"70.5"`) raises `ValueError`, modelled as `none`. -/
def strToInt (s : String) : Option Int :=
  match s.data with
  | '-' :: rest => (digitsToNat rest).map fun n => -(n : Int)
  | '+' :: rest => (digitsToNat rest).map fun n => (n : Int)
  | l => (digitsToNat l).map fun n => (n : Int)

/-- Truncation toward zero, Python `int(float)`: `int(70.9) = 70`,
`int(-70.9) = -70`. -/
def ratTrunc (q : ℚ) : Int :=
  q.num.sign * ((q.num.natAbs / q.den : Nat) : Int)

/-- Python `int(score)` as applied on line 213 of the source to a reported
score value; `none` is a raised `ValueError`/`TypeError`. -/
def pyIntCoerce : PyVal → Option Int
  | .pyInt n => some n
  | .pyFloat q => some (ratTrunc q)
  | .pyStr s => strToInt s

/-- The session scores dict.  Exactly these four keys exist for the whole
life of a session (see the header note on `KeyError` ordering). -/
structure Scores where
  communication : ℚ
  technical : ℚ
  behavioral : ℚ
  overall : ℚ
deriving DecidableEq

/-- Dict lookup `context.scores[k]`; `none` is a `KeyError`. -/
def Scores.get? (s : Scores) (k : String) : Option ℚ :=
  if k = "communication" then some s.communication
  else if k = "technical" then some s.technical
  else if k = "behavioral" then some s.behavioral
  else if k = "overall" then some s.overall
  else none

/-- Dict assignment `context.scores[k] = v` for an existing key `k` (the
only way the source reaches an assignment). -/
def Scores.set (s : Scores) (k : String) (v : ℚ) : Scores :=
  if k = "communication" then { s with communication := v }
  else if k = "technical" then { s with technical := v }
  else if k = "behavioral" then { s with behavioral := v }
  else if k = "overall" then { s with overall := v }
  else s

/-- The session state, `InterviewContext.__init__`'s fields.  Resume and
company data are opaque string maps; they are carried but never branched
on by the engine. -/
structure InterviewContext where
  resume_data : List (String × String)
  job_description : Option String
  company_info : List (String × String)
  history : List String
  current_phase : String
  scores : Scores
  feedback : List String
  questions_asked : List String
deriving DecidableEq

/-- `InterviewContext.__init__` (`startSession`): pure construction. -/
def InterviewContext.init (resume_data : List (String × String))
    (job_description : Option String)
    (company_info : Option (List (String × String))) : InterviewContext :=
  { resume_data := resume_data
    job_description := job_description
    company_info := company_info.getD []
    history := []
    current_phase := "introduction"
    scores := { communication := 0, technical := 0, behavioral := 0, overall := 0 }
    feedback := []
    questions_asked := [] }

/-- The keys of `self.interview_phases` from `load_interview_templates`:
the fixed phase set. -/
def interviewPhaseNames : List String :=
  ["introduction", "background", "technical", "behavioral", "closing"]

/-- A parsed provider JSON object for a turn; each field is `none` when the
key is absent from the object. -/
structure RawResponse where
  response : Option String
  scores : Option (List (String × PyVal))
  phase : Option String
  feedback : Option String
deriving DecidableEq

/-- One provider call's outcome: a raised error, text `json.loads`
rejects (or a parsed non-object — same state effect), or a parsed object. -/
inductive ProviderResult where
  | err
  | unparseable
  | parsed (r : RawResponse)
deriving DecidableEq

/-- The service configuration fixed in `LLMService.__init__`:
`self.max_retries = 3`, `self.retry_delay = 2`. -/
structure LLMService where
  max_retries : Nat
  retry_delay : Nat
deriving DecidableEq

/-- The service as `__init__` builds it. -/
def theService : LLMService := { max_retries := 3, retry_delay := 2 }

/-- The score-update loop of `generate_response` (lines 210–214): fold the
reported pairs left to right; for each, look the key up, coerce the value
with `int(...)`, and store the `max`.  The `Bool` is `false` when an
exception aborted the loop, leaving the partial updates in place. -/
def updateScores : Scores → List (String × PyVal) → Scores × Bool
  | s, [] => (s, true)
  | s, (k, v) :: rest =>
    match s.get? k, pyIntCoerce v with
    | some cur, some n => updateScores (s.set k (max cur (n : ℚ))) rest
    | _, _ => (s, false)

/-- One attempt of the retry loop, after the provider call: `json.loads`,
then the context mutations in source order; `none` as the second component
is the attempt's exception, with the first component holding whatever
mutations had already happened. -/
def attemptOnce (ctx : InterviewContext) (user_input : String)
    (pr : ProviderResult) : InterviewContext × Option RawResponse :=
  match pr with
  | .err => (ctx, none)
  | .unparseable => (ctx, none)
  | .parsed r =>
    match r.response with
    | none => (ctx, none)
    | some resp =>
      let c1 := { ctx with history := ctx.history ++ [user_input, resp] }
      match r.phase with
      | none => (c1, none)
      | some ph =>
        let c2 := { c1 with current_phase := ph }
        match r.feedback with
        | none => (c2, none)
        | some fb =>
          let c3 := { c2 with feedback := c2.feedback ++ [fb] }
          match r.scores with
          | none => (c3, none)
          | some reported =>
            let u := updateScores c3.scores reported
            if u.2 then
              let s2 := { u.1 with overall :=
                (u.1.communication + u.1.technical + u.1.behavioral) / 3 }
              ({ c3 with scores := s2 }, some r)
            else ({ c3 with scores := u.1 }, none)

/-- Result of the retry loop: final context, the parsed response when an
attempt succeeded, the number of provider calls made, and the log of
sleep durations. -/
structure LoopResult where
  ctx : InterviewContext
  parsedRes : Option RawResponse
  calls : Nat
  sleeps : List Nat
deriving DecidableEq

/-- The `for attempt in range(self.max_retries)` loop (lines 191–228),
over the list of remaining attempt indices.  A successful attempt returns
at once; a failed non-final attempt sleeps `d` and continues; a failed
final attempt re-raises (surfacing as `parsedRes = none`). -/
def genLoop (user_input : String) (provider : Nat → ProviderResult)
    (d : Nat) : InterviewContext → List Nat → LoopResult
  | ctx, [] => ⟨ctx, none, 0, []⟩
  | ctx, i :: rest =>
    match (attemptOnce ctx user_input (provider i)).2, rest with
    | some rr, _ => ⟨(attemptOnce ctx user_input (provider i)).1, some rr, 1, []⟩
    | none, [] => ⟨(attemptOnce ctx user_input (provider i)).1, none, 1, []⟩
    | none, j :: rest2 =>
      let g := genLoop user_input provider d
        (attemptOnce ctx user_input (provider i)).1 (j :: rest2)
      ⟨g.ctx, g.parsedRes, g.calls + 1, d :: g.sleeps⟩

/-- The value `generate_response` hands back: the parsed object on
success, or the fallback dict of lines 232–238 (whose `scores` and
`phase` entries are read from the context at catch time). -/
inductive TurnResult where
  | success (r : RawResponse)
  | fallback (evaluation response : String) (scores : Scores) (phase : String)
      (feedback : String)
deriving DecidableEq

/-- The constant `"evaluation"` entry of the fallback dict (line 233). -/
def fbEvaluation : String := "Error in processing response"

/-- The constant `"response"` entry of the fallback dict (line 234). -/
def fbResponse : String :=
  "I apologize, but I\x27m having trouble processing that. Could you please repeat your answer?"

/-- The constant `"feedback"` entry of the fallback dict (line 237). -/
def fbFeedback : String := "Technical difficulty in processing response"

/-- Discriminator for the fallback shape. -/
def TurnResult.isFallback : TurnResult → Bool
  | .success _ => false
  | .fallback _ _ _ _ _ => true

/-- Everything observable about one `generate_response` call. -/
structure TurnOutcome where
  ctx : InterviewContext
  result : TurnResult
  calls : Nat
  sleeps : List Nat
deriving DecidableEq

/-- `LLMService.generate_response`: run the retry loop; when it re-raises,
the outer handler returns the fallback dict built from the (possibly
partially mutated) context.  The `provider` argument gives the text of
the `self.model.predict` call for each attempt index. -/
def generate_response (svc : LLMService) (ctx : InterviewContext)
    (user_input : String) (provider : Nat → ProviderResult) : TurnOutcome :=
  let g := genLoop user_input provider svc.retry_delay ctx
    (List.range svc.max_retries)
  ⟨g.ctx,
    match g.parsedRes with
    | some r => .success r
    | none =>
      .fallback fbEvaluation fbResponse g.ctx.scores g.ctx.current_phase fbFeedback,
    g.calls, g.sleeps⟩

/-- A provider reply to the report prompt: raised error, unparseable
text, or a parsed JSON object (opaque field list). -/
inductive ReportProviderResult where
  | err
  | unparseable
  | parsedObj (fields : List (String × String))
deriving DecidableEq

/-- `generate_final_report`'s return value: the report object with
`scores` and `timestamp` stamped on, or the degraded dict of lines
282–286. -/
inductive ReportResult where
  | success (fields : List (String × String)) (scores : Scores) (timestamp : String)
  | degraded (error : String) (scores : Scores) (timestamp : String)
deriving DecidableEq

/-- Observable outcome of a report call: value plus provider-call count. -/
structure ReportOutcome where
  result : ReportResult
  calls : Nat
deriving DecidableEq

/-- `LLMService.generate_final_report`: one `predict` call, no retry loop;
any exception is caught and converted to the degraded dict.  `now` stands
for `datetime.utcnow().isoformat()`. -/
def generate_final_report (ctx : InterviewContext) (now : String)
    (pr : ReportProviderResult) : ReportOutcome :=
  match pr with
  | .parsedObj fields => ⟨.success fields ctx.scores now, 1⟩
  | _ => ⟨.degraded "Failed to generate report" ctx.scores now, 1⟩

/-- Whether a provider reply gets past `json.loads` AND the
`response_data["response"]` lookup — exactly the point after which the
source has already extended `history` (line 205). -/
def responseParses : ProviderResult → Bool
  | .parsed r => r.response.isSome
  | _ => false

/-- Pointwise order on the three category scores (the watermarked ones). -/
def catLe (a b : Scores) : Prop :=
  a.communication ≤ b.communication ∧ a.technical ≤ b.technical ∧
    a.behavioral ≤ b.behavioral

instance (a b : Scores) : Decidable (catLe a b) := by
  unfold catLe; infer_instance

/-- The three category scores are integers (denominator 1). -/
def catInt (s : Scores) : Prop :=
  s.communication.den = 1 ∧ s.technical.den = 1 ∧ s.behavioral.den = 1

instance (s : Scores) : Decidable (catInt s) := by
  unfold catInt; infer_instance

/-- A fresh session, for concrete runs. -/
def ctx0 : InterviewContext := InterviewContext.init [] none none

/-- A session holding the spec's concrete-scenario scores after turn 1:
`{communication:70, technical:60, behavioral:50, overall:60}`. -/
def ctx1 : InterviewContext :=
  { ctx0 with scores :=
      { communication := 70, technical := 60, behavioral := 50, overall := 60 } }

/-- A provider whose every reply parses as a full JSON object but reports
the score `"70.5"` — a non-integer numeric string, which `int(...)`
rejects after `history` has already been extended. -/
def prov705 : Nat → ProviderResult := fun _ =>
  .parsed { response := some "Tell me more."
            scores := some [("communication", .pyStr "70.5")]
            phase := some "technical"
            feedback := some "ok" }

/-- A fully well-formed reply with integer scores and a legal phase. -/
def goodResponse : RawResponse :=
  { response := some "Next question."
    scores := some [("communication", .pyInt 70), ("technical", .pyInt 60),
      ("behavioral", .pyInt 50)]
    phase := some "background"
    feedback := some "good" }

/-- A provider whose every reply is `goodResponse`. -/
def provGood : Nat → ProviderResult := fun _ => .parsed goodResponse

/-- A provider whose reply is well-formed except that its `phase` value,
`"lunch"`, lies outside the fixed phase set. -/
def provLunch : Nat → ProviderResult := fun _ =>
  .parsed { response := some "Let us pause."
            scores := some []
            phase := some "lunch"
            feedback := some "fb" }

/-- The spec's concrete turn-2 report, with the values arriving as
strings: `{communication:"65", technical:"80", behavioral:"50"}`. -/
def prov65 : Nat → ProviderResult := fun _ =>
  .parsed { response := some "Thanks."
            scores := some [("communication", .pyStr "65"), ("technical", .pyStr "80"),
              ("behavioral", .pyStr "50")]
            phase := some "technical"
            feedback := some "fine" }

/-- A provider reporting the float `70.9` (the rational `709/10`) for
`communication`. -/
def prov709 : Nat → ProviderResult := fun _ =>
  .parsed { response := some "Go on."
            scores := some [("communication", .pyFloat (mkRat 709 10))]
            phase := some "background"
            feedback := some "noted" }

/-! ## Lemmas on a single attempt -/

/-- If an attempt succeeded, its reply had parsed with a `response` key. -/
theorem attemptOnce_isSome_parses (ctx : InterviewContext) (ui : String)
    (pr : ProviderResult) (h : (attemptOnce ctx ui pr).2.isSome) :
    responseParses pr = true := by
  cases pr with
  | err => simp [attemptOnce] at h
  | unparseable => simp [attemptOnce] at h
  | parsed r =>
    cases hresp : r.response with
    | none => rw [attemptOnce] at h; simp [hresp] at h
    | some resp => simp [responseParses, hresp]

/-- One attempt grows `history` by 2 exactly when the reply parses with a
`response` key, whether or not the attempt later fails. -/
theorem attemptOnce_history_length (ctx : InterviewContext) (ui : String)
    (pr : ProviderResult) :
    (attemptOnce ctx ui pr).1.history.length =
      ctx.history.length + (if responseParses pr then 2 else 0) := by
  cases pr with
  | err => simp [attemptOnce, responseParses]
  | unparseable => simp [attemptOnce, responseParses]
  | parsed r =>
    rw [attemptOnce]
    cases hresp : r.response with
    | none => simp [responseParses, hresp]
    | some resp =>
      simp only [responseParses, hresp, Option.isSome_some, if_true]
      cases r.phase with
      | none => simp
      | some ph =>
        cases r.feedback with
        | none => simp
        | some fb =>
          cases r.scores with
          | none => simp
          | some reported =>
            simp only []
            split <;> simp

theorem catLe_refl (s : Scores) : catLe s s :=
  ⟨le_refl _, le_refl _, le_refl _⟩

theorem catLe_trans {a b c : Scores} (hab : catLe a b) (hbc : catLe b c) :
    catLe a c :=
  ⟨hab.1.trans hbc.1, hab.2.1.trans hbc.2.1, hab.2.2.trans hbc.2.2⟩

/-- Writing `max cur n` into the key `cur` was read from never lowers a
category score. -/
theorem catLe_set_max (s : Scores) (k : String) (cur : ℚ) (n : ℚ)
    (h : s.get? k = some cur) : catLe s (s.set k (max cur n)) := by
  unfold Scores.get? at h
  unfold Scores.set
  by_cases h1 : k = "communication"
  · simp only [h1, if_true] at h ⊢
    exact ⟨(Option.some_inj.mp h) ▸ le_max_left _ _, le_refl _, le_refl _⟩
  · simp only [h1, if_false] at h ⊢
    by_cases h2 : k = "technical"
    · simp only [h2, if_true] at h ⊢
      exact ⟨le_refl _, (Option.some_inj.mp h) ▸ le_max_left _ _, le_refl _⟩
    · simp only [h2, if_false] at h ⊢
      by_cases h3 : k = "behavioral"
      · simp only [h3, if_true] at h ⊢
        exact ⟨le_refl _, le_refl _, (Option.some_inj.mp h) ▸ le_max_left _ _⟩
      · simp only [h3, if_false] at h ⊢
        by_cases h4 : k = "overall"
        · simp only [h4, if_true]
          exact catLe_refl _
        · simp only [h4, if_false]
          exact catLe_refl _

/-- The score-fold (even when aborted mid-loop) never lowers a category
score: every write is a `max` with the current value. -/
theorem updateScores_catLe : ∀ (l : List (String × PyVal)) (s : Scores),
    catLe s (updateScores s l).1 := by
  intro l
  induction l with
  | nil => intro s; exact catLe_refl s
  | cons kv rest ih =>
    intro s
    rw [updateScores]
    cases hg : s.get? kv.1 with
    | none => exact catLe_refl s
    | some cur =>
      cases hc : pyIntCoerce kv.2 with
      | none => exact catLe_refl s
      | some n =>
        exact catLe_trans (catLe_set_max s kv.1 cur n hg)
          (ih (s.set kv.1 (max cur n)))

/-- Setting a key preserves integrality of the three category scores
when the written value is an integer; setting `overall` (or an unknown
key, a no-op) preserves it unconditionally. -/
theorem catInt_set (s : Scores) (k : String) (v : ℚ) (hs : catInt s)
    (hv : k = "overall" ∨ v.den = 1) : catInt (s.set k v) := by
  unfold Scores.set
  by_cases h1 : k = "communication"
  · have hden : v.den = 1 := by
      rcases hv with hk | hd
      · rw [h1] at hk; exact absurd hk (by decide)
      · exact hd
    simp only [h1, if_true]; exact ⟨hden, hs.2.1, hs.2.2⟩
  · simp only [h1, if_false]
    by_cases h2 : k = "technical"
    · have hden : v.den = 1 := by
        rcases hv with hk | hd
        · rw [h2] at hk; exact absurd hk (by decide)
        · exact hd
      simp only [h2, if_true]; exact ⟨hs.1, hden, hs.2.2⟩
    · simp only [h2, if_false]
      by_cases h3 : k = "behavioral"
      · have hden : v.den = 1 := by
          rcases hv with hk | hd
          · rw [h3] at hk; exact absurd hk (by decide)
          · exact hd
        simp only [h3, if_true]; exact ⟨hs.1, hs.2.1, hden⟩
      · simp only [h3, if_false]
        by_cases h4 : k = "overall"
        · simp only [h4, if_true]; exact hs
        · simp only [h4, if_false]; exact hs

/-- Every value the score-fold writes is `max cur (n : ℚ)` with `n : ℤ`,
so integrality of the category scores is preserved. -/
theorem updateScores_catInt : ∀ (l : List (String × PyVal)) (s : Scores),
    catInt s → catInt (updateScores s l).1 := by
  intro l
  induction l with
  | nil => intro s hs; exact hs
  | cons kv rest ih =>
    intro s hs
    rw [updateScores]
    cases hg : s.get? kv.1 with
    | none => exact hs
    | some cur =>
      cases hc : pyIntCoerce kv.2 with
      | none => exact hs
      | some n =>
        refine ih _ (catInt_set s kv.1 (max cur (n : ℚ)) hs ?_)
        by_cases hov : kv.1 = "overall"
        · exact Or.inl hov
        · right
          rcases max_choice cur ((n : ℚ)) with h | h
          · rw [h]
            unfold Scores.get? at hg
            split_ifs at hg with h1 h2 h3
            · exact (Option.some_inj.mp hg) ▸ hs.1
            · exact (Option.some_inj.mp hg) ▸ hs.2.1
            · exact (Option.some_inj.mp hg) ▸ hs.2.2
          · rw [h]; exact Rat.den_intCast n

/-- One attempt never lowers a category score, even when it aborts
mid-update. -/
theorem attemptOnce_catLe (ctx : InterviewContext) (ui : String)
    (pr : ProviderResult) :
    catLe ctx.scores (attemptOnce ctx ui pr).1.scores := by
  cases pr with
  | err => exact catLe_refl _
  | unparseable => exact catLe_refl _
  | parsed r =>
    rw [attemptOnce]
    cases hresp : r.response with
    | none => exact catLe_refl _
    | some resp =>
      cases hph : r.phase with
      | none => exact catLe_refl _
      | some ph =>
        cases hfb : r.feedback with
        | none => exact catLe_refl _
        | some fb =>
          cases hsc : r.scores with
          | none => exact catLe_refl _
          | some reported =>
            simp only []
            split
            · have h := updateScores_catLe reported ctx.scores
              exact ⟨h.1, h.2.1, h.2.2⟩
            · exact updateScores_catLe reported ctx.scores

/-- One attempt keeps the three category scores integral. -/
theorem attemptOnce_catInt (ctx : InterviewContext) (ui : String)
    (pr : ProviderResult) (hs : catInt ctx.scores) :
    catInt (attemptOnce ctx ui pr).1.scores := by
  cases pr with
  | err => exact hs
  | unparseable => exact hs
  | parsed r =>
    rw [attemptOnce]
    cases hresp : r.response with
    | none => exact hs
    | some resp =>
      cases hph : r.phase with
      | none => exact hs
      | some ph =>
        cases hfb : r.feedback with
        | none => exact hs
        | some fb =>
          cases hsc : r.scores with
          | none => exact hs
          | some reported =>
            simp only []
            split
            · have h := updateScores_catInt reported ctx.scores hs
              exact ⟨h.1, h.2.1, h.2.2⟩
            · exact updateScores_catInt reported ctx.scores hs

/-- A successful attempt leaves `overall` equal to the arithmetic mean of
the three category scores (the line-216 recomputation is the last score
write of the attempt). -/
theorem attemptOnce_overall (ctx : InterviewContext) (ui : String)
    (pr : ProviderResult) (r' : RawResponse)
    (h : (attemptOnce ctx ui pr).2 = some r') :
    (attemptOnce ctx ui pr).1.scores.overall =
      ((attemptOnce ctx ui pr).1.scores.communication +
        (attemptOnce ctx ui pr).1.scores.technical +
        (attemptOnce ctx ui pr).1.scores.behavioral) / 3 := by
  cases pr with
  | err => simp [attemptOnce] at h
  | unparseable => simp [attemptOnce] at h
  | parsed r =>
    rw [attemptOnce] at h ⊢
    cases hresp : r.response with
    | none => rw [hresp] at h; simp at h
    | some resp =>
      rw [hresp] at h
      cases hph : r.phase with
      | none => rw [hph] at h; simp at h
      | some ph =>
        rw [hph] at h
        cases hfb : r.feedback with
        | none => rw [hfb] at h; simp at h
        | some fb =>
          rw [hfb] at h
          cases hsc : r.scores with
          | none => rw [hsc] at h; simp at h
          | some reported =>
            rw [hsc] at h
            simp only [] at h ⊢
            split at h
            · next hu =>
              simp only [hu, if_true]
            · simp at h

/-- One attempt keeps `current_phase` inside a set `P` provided the reply,
when parsed, reports a phase in `P`; the source itself performs no such
validation, so this is conditional on the provider. -/
theorem attemptOnce_phase_mem (ctx : InterviewContext) (ui : String)
    (pr : ProviderResult) (hctx : ctx.current_phase ∈ interviewPhaseNames)
    (hpr : ∀ r p, pr = .parsed r → r.phase = some p → p ∈ interviewPhaseNames) :
    (attemptOnce ctx ui pr).1.current_phase ∈ interviewPhaseNames := by
  cases pr with
  | err => exact hctx
  | unparseable => exact hctx
  | parsed r =>
    rw [attemptOnce]
    cases hresp : r.response with
    | none => exact hctx
    | some resp =>
      cases hph : r.phase with
      | none => exact hctx
      | some ph =>
        have hmem := hpr r ph rfl hph
        cases hfb : r.feedback with
        | none => exact hmem
        | some fb =>
          cases hsc : r.scores with
          | none => exact hmem
          | some reported =>
            simp only []
            split
            · exact hmem
            · exact hmem
/-! ## Reduction lemmas for the retry loop -/

/-- A successful attempt ends the loop at once. -/
theorem genLoop_cons_some (ui : String) (provider : Nat → ProviderResult)
    (d : Nat) (ctx : InterviewContext) (i : Nat) (rest : List Nat)
    (rr : RawResponse) (ha : (attemptOnce ctx ui (provider i)).2 = some rr) :
    genLoop ui provider d ctx (i :: rest) =
      ⟨(attemptOnce ctx ui (provider i)).1, some rr, 1, []⟩ := by
  cases rest <;> simp [genLoop, ha]

/-- A failed final attempt re-raises: the loop ends with no response. -/
theorem genLoop_cons_none_nil (ui : String) (provider : Nat → ProviderResult)
    (d : Nat) (ctx : InterviewContext) (i : Nat)
    (ha : (attemptOnce ctx ui (provider i)).2 = none) :
    genLoop ui provider d ctx [i] =
      ⟨(attemptOnce ctx ui (provider i)).1, none, 1, []⟩ := by
  simp [genLoop, ha]

/-- A failed non-final attempt sleeps `d` and retries on the mutated
context. -/
theorem genLoop_cons_none_cons (ui : String) (provider : Nat → ProviderResult)
    (d : Nat) (ctx : InterviewContext) (i j : Nat) (rest2 : List Nat)
    (ha : (attemptOnce ctx ui (provider i)).2 = none) :
    genLoop ui provider d ctx (i :: j :: rest2) =
      ⟨(genLoop ui provider d (attemptOnce ctx ui (provider i)).1 (j :: rest2)).ctx,
        (genLoop ui provider d (attemptOnce ctx ui (provider i)).1 (j :: rest2)).parsedRes,
        (genLoop ui provider d (attemptOnce ctx ui (provider i)).1 (j :: rest2)).calls + 1,
        d :: (genLoop ui provider d (attemptOnce ctx ui (provider i)).1
          (j :: rest2)).sleeps⟩ := by
  simp [genLoop, ha]

/-! ## Lemmas on the retry loop -/

/-- Call/sleep accounting of the retry loop: never more calls than
remaining indices, at least one call when an index exists, and exactly one
`d`-second sleep strictly between consecutive calls. -/
theorem genLoop_calls_sleeps (ui : String) (provider : Nat → ProviderResult)
    (d : Nat) : ∀ (l : List Nat) (ctx : InterviewContext),
    (genLoop ui provider d ctx l).calls ≤ l.length ∧
    (genLoop ui provider d ctx l).sleeps =
      List.replicate ((genLoop ui provider d ctx l).calls - 1) d ∧
    (l ≠ [] → 1 ≤ (genLoop ui provider d ctx l).calls) := by
  intro l
  induction l with
  | nil =>
    intro ctx
    exact ⟨by simp [genLoop], by simp [genLoop], fun h => absurd rfl h⟩
  | cons i rest ih =>
    intro ctx
    cases ha : (attemptOnce ctx ui (provider i)).2 with
    | some rr =>
      rw [genLoop_cons_some ui provider d ctx i rest rr ha]
      exact ⟨by simp, rfl, fun _ => le_refl _⟩
    | none =>
      cases rest with
      | nil =>
        rw [genLoop_cons_none_nil ui provider d ctx i ha]
        exact ⟨by simp, rfl, fun _ => le_refl _⟩
      | cons j rest2 =>
        rw [genLoop_cons_none_cons ui provider d ctx i j rest2 ha]
        obtain ⟨ih1, ih2, ih3⟩ := ih (attemptOnce ctx ui (provider i)).1
        have h1 : 1 ≤ (genLoop ui provider d (attemptOnce ctx ui (provider i)).1
            (j :: rest2)).calls := ih3 (by simp)
        refine ⟨by simpa using Nat.add_le_add_right ih1 1, ?_, fun _ => by simp⟩
        simp only [Nat.add_sub_cancel]
        rw [show (genLoop ui provider d (attemptOnce ctx ui (provider i)).1
            (j :: rest2)).calls =
          ((genLoop ui provider d (attemptOnce ctx ui (provider i)).1
            (j :: rest2)).calls - 1) + 1 by omega]
        rw [List.replicate_succ, ih2]

/-- History growth across the whole retry loop: 2 entries for every
attempted call whose reply parsed with a `response` key. -/
theorem genLoop_history (ui : String) (provider : Nat → ProviderResult)
    (d : Nat) : ∀ (l : List Nat) (ctx : InterviewContext),
    (genLoop ui provider d ctx l).ctx.history.length =
      ctx.history.length +
        2 * ((l.take (genLoop ui provider d ctx l).calls).countP
          fun i => responseParses (provider i)) := by
  intro l
  induction l with
  | nil => intro ctx; simp [genLoop]
  | cons i rest ih =>
    intro ctx
    have hlen := attemptOnce_history_length ctx ui (provider i)
    cases ha : (attemptOnce ctx ui (provider i)).2 with
    | some rr =>
      have hp : responseParses (provider i) = true :=
        attemptOnce_isSome_parses ctx ui (provider i) (by rw [ha]; rfl)
      rw [genLoop_cons_some ui provider d ctx i rest rr ha]
      simp only [hp, if_true] at hlen
      simp [hp, List.take_succ_cons, List.countP_cons, hlen]
    | none =>
      cases rest with
      | nil =>
        rw [genLoop_cons_none_nil ui provider d ctx i ha]
        cases hp : responseParses (provider i) <;>
          simp only [hp, if_true, if_false] at hlen <;>
          simp [hp, List.take_succ_cons, List.countP_cons, hlen]
      | cons j rest2 =>
        rw [genLoop_cons_none_cons ui provider d ctx i j rest2 ha]
        have hrec := ih (attemptOnce ctx ui (provider i)).1
        cases hp : responseParses (provider i) <;>
          simp [hp] at hlen <;>
          simp [List.take_succ_cons, List.countP_cons, hrec, hlen, hp] <;>
          omega

/-- The retry loop never lowers a category score. -/
theorem genLoop_catLe (ui : String) (provider : Nat → ProviderResult)
    (d : Nat) : ∀ (l : List Nat) (ctx : InterviewContext),
    catLe ctx.scores (genLoop ui provider d ctx l).ctx.scores := by
  intro l
  induction l with
  | nil => intro ctx; exact catLe_refl _
  | cons i rest ih =>
    intro ctx
    cases ha : (attemptOnce ctx ui (provider i)).2 with
    | some rr =>
      rw [genLoop_cons_some ui provider d ctx i rest rr ha]
      exact attemptOnce_catLe ctx ui (provider i)
    | none =>
      cases rest with
      | nil =>
        rw [genLoop_cons_none_nil ui provider d ctx i ha]
        exact attemptOnce_catLe ctx ui (provider i)
      | cons j rest2 =>
        rw [genLoop_cons_none_cons ui provider d ctx i j rest2 ha]
        exact catLe_trans (attemptOnce_catLe ctx ui (provider i))
          (ih (attemptOnce ctx ui (provider i)).1)

/-- The retry loop keeps the three category scores integral. -/
theorem genLoop_catInt (ui : String) (provider : Nat → ProviderResult)
    (d : Nat) : ∀ (l : List Nat) (ctx : InterviewContext),
    catInt ctx.scores → catInt (genLoop ui provider d ctx l).ctx.scores := by
  intro l
  induction l with
  | nil => intro ctx hs; exact hs
  | cons i rest ih =>
    intro ctx hs
    cases ha : (attemptOnce ctx ui (provider i)).2 with
    | some rr =>
      rw [genLoop_cons_some ui provider d ctx i rest rr ha]
      exact attemptOnce_catInt ctx ui (provider i) hs
    | none =>
      cases rest with
      | nil =>
        rw [genLoop_cons_none_nil ui provider d ctx i ha]
        exact attemptOnce_catInt ctx ui (provider i) hs
      | cons j rest2 =>
        rw [genLoop_cons_none_cons ui provider d ctx i j rest2 ha]
        exact ih (attemptOnce ctx ui (provider i)).1
          (attemptOnce_catInt ctx ui (provider i) hs)

/-- When the retry loop returns a parsed response, `overall` ends as the
arithmetic mean of the three category scores. -/
theorem genLoop_overall (ui : String) (provider : Nat → ProviderResult)
    (d : Nat) : ∀ (l : List Nat) (ctx : InterviewContext) (r : RawResponse),
    (genLoop ui provider d ctx l).parsedRes = some r →
    (genLoop ui provider d ctx l).ctx.scores.overall =
      ((genLoop ui provider d ctx l).ctx.scores.communication +
        (genLoop ui provider d ctx l).ctx.scores.technical +
        (genLoop ui provider d ctx l).ctx.scores.behavioral) / 3 := by
  intro l
  induction l with
  | nil => intro ctx r h; simp [genLoop] at h
  | cons i rest ih =>
    intro ctx r h
    cases ha : (attemptOnce ctx ui (provider i)).2 with
    | some rr =>
      rw [genLoop_cons_some ui provider d ctx i rest rr ha]
      exact attemptOnce_overall ctx ui (provider i) rr ha
    | none =>
      cases rest with
      | nil =>
        rw [genLoop_cons_none_nil ui provider d ctx i ha] at h
        cases h
      | cons j rest2 =>
        rw [genLoop_cons_none_cons ui provider d ctx i j rest2 ha] at h ⊢
        exact ih (attemptOnce ctx ui (provider i)).1 r h

/-- The retry loop keeps `current_phase` inside the fixed phase set
provided every parsed provider reply reports a phase in the set. -/
theorem genLoop_phase_mem (ui : String) (provider : Nat → ProviderResult)
    (d : Nat)
    (hpr : ∀ i r p, provider i = .parsed r → r.phase = some p →
      p ∈ interviewPhaseNames) :
    ∀ (l : List Nat) (ctx : InterviewContext),
    ctx.current_phase ∈ interviewPhaseNames →
    (genLoop ui provider d ctx l).ctx.current_phase ∈ interviewPhaseNames := by
  intro l
  induction l with
  | nil => intro ctx hc; exact hc
  | cons i rest ih =>
    intro ctx hc
    have hstep := attemptOnce_phase_mem ctx ui (provider i) hc (hpr i)
    cases ha : (attemptOnce ctx ui (provider i)).2 with
    | some rr =>
      rw [genLoop_cons_some ui provider d ctx i rest rr ha]
      exact hstep
    | none =>
      cases rest with
      | nil =>
        rw [genLoop_cons_none_nil ui provider d ctx i ha]
        exact hstep
      | cons j rest2 =>
        rw [genLoop_cons_none_cons ui provider d ctx i j rest2 ha]
        exact ih (attemptOnce ctx ui (provider i)).1 hstep

/-- C9: `InterviewContext` construction is a pure function of its inputs
that always yields `current_phase = "introduction"`, all four scores `0`,
and empty `history`, `feedback` and `questions_asked`. -/
theorem C9_startSession_initial_state (rd : List (String × String))
    (jd : Option String) (ci : Option (List (String × String))) :
    (InterviewContext.init rd jd ci).current_phase = "introduction" ∧
    (InterviewContext.init rd jd ci).scores =
      { communication := 0, technical := 0, behavioral := 0, overall := 0 } ∧
    (InterviewContext.init rd jd ci).history = [] ∧
    (InterviewContext.init rd jd ci).feedback = [] ∧
    (InterviewContext.init rd jd ci).questions_asked = [] := by
  refine ⟨rfl, rfl, rfl, rfl, rfl⟩

/-! ## Claim theorems -/

/-- The returned object of `generate_response`, spelled by the loop
outcome: the parsed dict on success, the fallback dict (reading `scores`
and `phase` from the context at catch time) on exhaustion. -/
theorem generate_response_result_eq (svc : LLMService) (ctx : InterviewContext)
    (ui : String) (provider : Nat → ProviderResult) :
    (generate_response svc ctx ui provider).result =
      (match (genLoop ui provider svc.retry_delay ctx
          (List.range svc.max_retries)).parsedRes with
        | some r => TurnResult.success r
        | none => TurnResult.fallback fbEvaluation fbResponse
            (genLoop ui provider svc.retry_delay ctx
              (List.range svc.max_retries)).ctx.scores
            (genLoop ui provider svc.retry_delay ctx
              (List.range svc.max_retries)).ctx.current_phase
            fbFeedback) := rfl

/-- C1 counterexample: a provider whose replies parse as JSON (with a
`response` key) but carry the malformed score string `"70.5"` exhausts
all retries — the turn fully fails and the fallback is returned — yet
`history` has grown by 6 entries, not 0: the source extends `history`
(line 205) before score validation can fail (line 213). -/
theorem C1_counterexample :
    (generate_response theService ctx0 "hi" prov705).result.isFallback = true ∧
    (generate_response theService ctx0 "hi" prov705).ctx.history.length = 6 ∧
    ctx0.history.length = 0 := by
  refine ⟨by decide, by decide, rfl⟩

/-- C1 (amended): `history` grows by exactly 2 entries for each attempted
provider call whose reply parses as JSON and contains a `response` key —
so a turn succeeding on its first attempt appends exactly 2, and a fully
failed turn appends 0 exactly when every attempt failed at or before the
JSON parse / `response` lookup; an attempt that parses but fails later
(bad phase, feedback, or score) still appends 2 before retrying. -/
theorem C1_history_growth (ctx : InterviewContext) (ui : String)
    (provider : Nat → ProviderResult) :
    (generate_response theService ctx ui provider).ctx.history.length =
      ctx.history.length +
        2 * ((List.range (generate_response theService ctx ui provider).calls).countP
          fun i => responseParses (provider i)) := by
  have hc : (genLoop ui provider theService.retry_delay ctx
      (List.range theService.max_retries)).calls ≤ 3 := by
    simpa using (genLoop_calls_sleeps ui provider theService.retry_delay
      (List.range theService.max_retries) ctx).1
  have h := genLoop_history ui provider theService.retry_delay
    (List.range theService.max_retries) ctx
  rw [show (List.range theService.max_retries).take
      (genLoop ui provider theService.retry_delay ctx
        (List.range theService.max_retries)).calls =
      List.range (genLoop ui provider theService.retry_delay ctx
        (List.range theService.max_retries)).calls by
    interval_cases h3 : (genLoop ui provider theService.retry_delay ctx
      (List.range theService.max_retries)).calls <;> rfl] at h
  exact h

/-- C2: no turn — successful or not — ever lowers any of the three stored
category scores: every write is `max(current, reported)` (line 211), so
over any sequence of turns each category is a monotonic watermark. -/
theorem C2_scores_monotone (ctx : InterviewContext) (ui : String)
    (provider : Nat → ProviderResult) :
    ctx.scores.communication ≤
        (generate_response theService ctx ui provider).ctx.scores.communication ∧
      ctx.scores.technical ≤
        (generate_response theService ctx ui provider).ctx.scores.technical ∧
      ctx.scores.behavioral ≤
        (generate_response theService ctx ui provider).ctx.scores.behavioral :=
  genLoop_catLe ui provider theService.retry_delay
    (List.range theService.max_retries) ctx

/-- C3: after every successful turn, `scores.overall` equals the
arithmetic mean of the three stored category scores (lines 216-220
recompute it as the last score write; nothing else writes scores between
turns). -/
theorem C3_overall_mean (ctx : InterviewContext) (ui : String)
    (provider : Nat → ProviderResult) (r : RawResponse)
    (h : (generate_response theService ctx ui provider).result =
      TurnResult.success r) :
    (generate_response theService ctx ui provider).ctx.scores.overall =
      ((generate_response theService ctx ui provider).ctx.scores.communication +
        (generate_response theService ctx ui provider).ctx.scores.technical +
        (generate_response theService ctx ui provider).ctx.scores.behavioral) / 3 := by
  rw [generate_response_result_eq] at h
  cases hp : (genLoop ui provider theService.retry_delay ctx
      (List.range theService.max_retries)).parsedRes with
  | none => rw [hp] at h; cases h
  | some r' =>
    exact genLoop_overall ui provider theService.retry_delay
      (List.range theService.max_retries) ctx r' hp

/-- C3 witness: a concrete successful turn whose stored `overall` is the
mean of the stored categories. -/
theorem C3_overall_mean_witness :
    (generate_response theService ctx0 "hi" provGood).ctx.scores.overall =
      ((generate_response theService ctx0 "hi" provGood).ctx.scores.communication +
        (generate_response theService ctx0 "hi" provGood).ctx.scores.technical +
        (generate_response theService ctx0 "hi" provGood).ctx.scores.behavioral) / 3 :=
  C3_overall_mean ctx0 "hi" provGood goodResponse (by decide)

/-- C4: when every provider reply is unparseable text, the turn returns
the fallback object (never an exception) whose `phase` equals the
pre-call `current_phase` and whose `scores` equal the pre-call `scores`;
the context itself is untouched, since `json.loads` fails before any
mutation. -/
theorem C4_fallback_preserves (ctx : InterviewContext) (ui : String)
    (provider : Nat → ProviderResult)
    (h : ∀ i, provider i = ProviderResult.unparseable) :
    (generate_response theService ctx ui provider).result =
      TurnResult.fallback fbEvaluation fbResponse ctx.scores ctx.current_phase
        fbFeedback ∧
    (generate_response theService ctx ui provider).ctx = ctx := by
  have ha0 : (attemptOnce ctx ui (provider 0)).2 = none := by
    simp [h 0, attemptOnce]
  have hc0 : (attemptOnce ctx ui (provider 0)).1 = ctx := by
    simp [h 0, attemptOnce]
  have ha1 : (attemptOnce ctx ui (provider 1)).2 = none := by
    simp [h 1, attemptOnce]
  have hc1 : (attemptOnce ctx ui (provider 1)).1 = ctx := by
    simp [h 1, attemptOnce]
  have ha2 : (attemptOnce ctx ui (provider 2)).2 = none := by
    simp [h 2, attemptOnce]
  have hc2 : (attemptOnce ctx ui (provider 2)).1 = ctx := by
    simp [h 2, attemptOnce]
  have hloop : genLoop ui provider theService.retry_delay ctx
      (List.range theService.max_retries) = ⟨ctx, none, 3, [2, 2]⟩ := by
    show genLoop ui provider 2 ctx [0, 1, 2] = ⟨ctx, none, 3, [2, 2]⟩
    rw [genLoop_cons_none_cons ui provider 2 ctx 0 1 [2] ha0, hc0,
      genLoop_cons_none_cons ui provider 2 ctx 1 2 [] ha1, hc1,
      genLoop_cons_none_nil ui provider 2 ctx 2 ha2, hc2]
  constructor
  · rw [generate_response_result_eq, hloop]
  · show (genLoop ui provider theService.retry_delay ctx
      (List.range theService.max_retries)).ctx = ctx
    rw [hloop]

/-- C4 witness: the always-unparseable provider on a fresh session. -/
theorem C4_fallback_preserves_witness :
    (generate_response theService ctx0 "hi"
        fun _ => ProviderResult.unparseable).result =
      TurnResult.fallback fbEvaluation fbResponse ctx0.scores ctx0.current_phase
        fbFeedback ∧
    (generate_response theService ctx0 "hi"
        fun _ => ProviderResult.unparseable).ctx = ctx0 :=
  C4_fallback_preserves ctx0 "hi" (fun _ => ProviderResult.unparseable)
    (fun _ => rfl)

/-- C5 counterexample: a well-formed reply whose `phase` value is
`"lunch"` is stored verbatim by line 206 — the source validates nothing —
so `current_phase` leaves the fixed phase set, contradicting the claimed
invariant. -/
theorem C5_counterexample :
    (generate_response theService ctx0 "hi" provLunch).ctx.current_phase =
      "lunch" ∧
    "lunch" ∉ interviewPhaseNames := by
  refine ⟨by decide, by decide⟩

/-- C5 (amended): `current_phase` stays in the fixed phase set only
conditionally — provided every parsed provider reply reports a phase
inside the set; the assignment itself is unvalidated, so a malformed
reply does introduce an unrecognized value (see the counterexample). -/
theorem C5_phase_invariant (ctx : InterviewContext) (ui : String)
    (provider : Nat → ProviderResult)
    (hctx : ctx.current_phase ∈ interviewPhaseNames)
    (hpr : ∀ i r p, provider i = ProviderResult.parsed r → r.phase = some p →
      p ∈ interviewPhaseNames) :
    (generate_response theService ctx ui provider).ctx.current_phase ∈
      interviewPhaseNames :=
  genLoop_phase_mem ui provider theService.retry_delay hpr
    (List.range theService.max_retries) ctx hctx

/-- C5 witness: a well-behaved provider keeps the phase in the set. -/
theorem C5_phase_invariant_witness :
    (generate_response theService ctx0 "hi" provGood).ctx.current_phase ∈
      interviewPhaseNames :=
  C5_phase_invariant ctx0 "hi" provGood (by decide)
    (fun i r p h1 h2 => by
      simp only [provGood] at h1
      injection h1 with hr
      subst hr
      simp only [goodResponse] at h2
      injection h2 with hp2
      subst hp2
      decide)

/-- C6: the Score Aggregator folds a reported mapping by
`new = max(current, reported)` per category (coercing each value through
`int(...)`, so string or numeric reports both land as numbers), and the
spec's concrete scenario holds: from stored `{70,60,50}` a turn reporting
`{communication:65, technical:80, behavioral:50}` (as strings) yields
stored `{70,80,50}` with `overall = 200/3`, whose two-decimal rendering
is `66.67` (the final `round` conjunct). -/
theorem C6_score_aggregator :
    (∀ (s : Scores) (v1 v2 v3 : PyVal) (n1 n2 n3 : Int),
      pyIntCoerce v1 = some n1 → pyIntCoerce v2 = some n2 →
      pyIntCoerce v3 = some n3 →
      updateScores s
          [("communication", v1), ("technical", v2), ("behavioral", v3)] =
        ({ communication := max s.communication (n1 : ℚ),
           technical := max s.technical (n2 : ℚ),
           behavioral := max s.behavioral (n3 : ℚ),
           overall := s.overall }, true)) ∧
    (generate_response theService ctx1 "answer" prov65).ctx.scores =
      { communication := 70, technical := 80, behavioral := 50,
        overall := ((70 : ℚ) + 80 + 50) / 3 } ∧
    ((70 : ℚ) + 80 + 50) / 3 = 200 / 3 ∧
    round ((200 : ℚ) / 3 * 100) = (6667 : ℤ) := by
  refine ⟨?_, by rfl, by norm_num, by norm_num [round_eq]⟩
  intro s v1 v2 v3 n1 n2 n3 h1 h2 h3
  simp [updateScores, Scores.get?, Scores.set, h1, h2, h3]

/-- C6 witness: the aggregation law applied at the spec's scenario. -/
theorem C6_score_aggregator_witness :
    updateScores ctx1.scores
      [("communication", PyVal.pyStr "65"), ("technical", PyVal.pyStr "80"),
        ("behavioral", PyVal.pyStr "50")] =
      ({ communication := max (70 : ℚ) ((65 : Int) : ℚ),
         technical := max (60 : ℚ) ((80 : Int) : ℚ),
         behavioral := max (50 : ℚ) ((50 : Int) : ℚ),
         overall := (60 : ℚ) }, true) :=
  C6_score_aggregator.1 ctx1.scores (PyVal.pyStr "65") (PyVal.pyStr "80")
    (PyVal.pyStr "50") 65 80 50 (by decide) (by decide) (by decide)

/-- C7: every turn makes at most 3 provider calls (`max_retries = 3`),
and sleeps exactly `retry_delay = 2` time units once between consecutive
attempts — one sleep fewer than calls, none after the last. -/
theorem C7_retry_bound (ctx : InterviewContext) (ui : String)
    (provider : Nat → ProviderResult) :
    (generate_response theService ctx ui provider).calls ≤ 3 ∧
    (generate_response theService ctx ui provider).sleeps =
      List.replicate ((generate_response theService ctx ui provider).calls - 1)
        2 := by
  obtain ⟨h1, h2, h3⟩ := genLoop_calls_sleeps ui provider theService.retry_delay
    (List.range theService.max_retries) ctx
  exact ⟨by simpa using h1, h2⟩

/-- C8: `generate_final_report` makes exactly one provider attempt (the
source has no retry loop there), and on provider error or unparseable
text never raises: it returns the degraded dict of lines 282-286 carrying
the `error` marker, the session's current `scores`, and the timestamp. -/
theorem C8_report_degrades (ctx : InterviewContext) (now : String)
    (pr : ReportProviderResult) :
    (generate_final_report ctx now pr).calls = 1 ∧
    ((pr = ReportProviderResult.err ∨ pr = ReportProviderResult.unparseable) →
      (generate_final_report ctx now pr).result =
        ReportResult.degraded "Failed to generate report" ctx.scores now) := by
  constructor
  · cases pr <;> rfl
  · intro h
    rcases h with h | h <;> subst h <;> rfl

/-- C8 witness: a throwing provider on a fresh session degrades. -/
theorem C8_report_degrades_witness :
    (generate_final_report ctx0 "2024-01-01T00:00:00" ReportProviderResult.err).calls
        = 1 ∧
    (generate_final_report ctx0 "2024-01-01T00:00:00"
        ReportProviderResult.err).result =
      ReportResult.degraded "Failed to generate report" ctx0.scores
        "2024-01-01T00:00:00" :=
  ⟨(C8_report_degrades ctx0 "2024-01-01T00:00:00" ReportProviderResult.err).1,
    (C8_report_degrades ctx0 "2024-01-01T00:00:00" ReportProviderResult.err).2
      (Or.inl rfl)⟩

/-- C10: score coercion truncates — `int(70.9) = 70` is stored, while the
non-integer numeric string `"70.5"` makes `int(...)` raise, so that
attempt joins the retry/fallback path; and every turn keeps the three
stored category scores integral (denominator 1). -/
theorem C10_integer_truncation :
    pyIntCoerce (PyVal.pyFloat (mkRat 709 10)) = some 70 ∧
    pyIntCoerce (PyVal.pyStr "70.5") = none ∧
    (∀ (ctx : InterviewContext) (ui : String) (provider : Nat → ProviderResult),
      catInt ctx.scores →
      catInt (generate_response theService ctx ui provider).ctx.scores) ∧
    (generate_response theService ctx0 "hi" prov709).ctx.scores.communication
        = 70 ∧
    (generate_response theService ctx0 "hi" prov705).result.isFallback = true := by
  refine ⟨by decide, by decide, ?_, by decide, by decide⟩
  intro ctx ui provider hs
  exact genLoop_catInt ui provider theService.retry_delay
    (List.range theService.max_retries) ctx hs

/-- C10 witness: integrality holds concretely across a successful turn
from the fresh session. -/
theorem C10_integer_truncation_witness :
    catInt ctx0.scores ∧
    catInt (generate_response theService ctx0 "hi" provGood).ctx.scores :=
  ⟨by decide, C10_integer_truncation.2.2.1 ctx0 "hi" provGood (by decide)⟩
